import Mathlib

/-!
Verification of the notiongo exporter core.

This file is a shallow embedding, in Lean 4, of the behaviourally relevant
parts of the repository: the response cache (`cache/cache.go`), the fetch
layer with its rate-limit retry policy, the property extractors over the
loosely-typed page property map, the block renderer, the slug registry, and
the recursive tree exporter (`writeMarkdown` / `processBlocks`).

Modelling conventions used throughout:

* Go strings are Lean `String`s; every `strings.ReplaceAll` call in the
  program uses a single-character pattern, so it is modelled by
  `replaceChar` below.
* `time.Time` instants are modelled as `Nat` (comparison of instants is a
  total order; only comparisons are used by the code).
* Effectful collaborators (HTTP fetches, image download) are modelled as an
  explicit environment of oracles (`Env`); an oracle answering `none`
  models the corresponding Go call returning an error.
* Go panics arising from unchecked type assertions and nil-pointer
  dereferences are modelled as `Option`/`Failure.panicked` outcomes and
  propagated; a returned Go `error` is `Failure.errored`.
* Unbounded recursion (retry loops, pagination loops, tree recursion) is
  totalized with an explicit fuel parameter, structurally recursive so
  that every definition evaluates by kernel reduction.  Running out of
  fuel yields a harmless default; all theorems below either need no fuel
  or hold for every fuel value / a supplied sufficient fuel.
-/

namespace NotionGo

/-! ## String helpers (models of the Go standard library calls used) -/

/-- Model of Go `strings.ReplaceAll(s, old, new)` for a single-character
pattern `old = c`: every occurrence of `c` in `s` is replaced by `r`.
Every `ReplaceAll` in the program has a single-character pattern. -/
def replaceChar (c : Char) (r : String) (s : String) : String :=
  String.mk (s.data.foldr (fun ch acc => (if ch = c then r.data else [ch]) ++ acc) [])

/-- Model of Go `strings.TrimSuffix(s, "\n")`: drop one trailing newline
character if present. -/
def trimSuffixNewline (s : String) : String :=
  match s.data.getLast? with
  | some c => if c = '\n' then String.mk s.data.dropLast else s
  | none => s

/-- Model of the Go helper `stringExists(slice, str)`: linear scan for an
exact match. -/
def stringExists (slice : List String) (str : String) : Bool :=
  slice.any (fun v => v == str)

/-- Model of the Go test `len(s) > 0 && s[0:1] == "/"` (a one-byte slice
comparison; the first byte of a UTF-8 string is `'/'` iff its first
character is `'/'`). -/
def startsWithSlash (s : String) : Bool :=
  match s.data with
  | [] => false
  | c :: _ => c = '/'

/-- Concatenation of a list of strings (in order). -/
def strConcat : List String → String
  | [] => ""
  | s :: rest => s ++ strConcat rest

/-! ## The rich-text data model (from the Go struct declarations) -/

/-- Go `Annotations`: the style-annotation set of a rich-text run. -/
structure Annotations where
  bold : Bool := false
  italic : Bool := false
  strikethrough : Bool := false
  underline : Bool := false
  code : Bool := false
  color : String := ""
deriving Repr, DecidableEq

/-- Go `Mention.Page` (`struct { ID string }`). -/
structure MentionPage where
  id : String := ""
deriving Repr, DecidableEq

/-- Go `Mention`. -/
structure Mention where
  type : String := ""
  page : MentionPage := {}
deriving Repr, DecidableEq

/-- Go `RichText`.  A nil `Mention`/`Href` pointer is `none`. -/
structure RichText where
  type : String := ""
  annotations : Annotations := {}
  plainText : String := ""
  mention : Option Mention := none
  href : Option String := none
deriving Repr, DecidableEq

/-! ## The run renderer `formatBlockHTML` (source lines 512-536) -/

/-- Model of Go `formatBlockHTML`: first `·` → `-` and newline → `<br />`,
then conditionally wrap in `<strong>`, `<em>`, `<u>`, `<del>`, `<code>`,
in that order. -/
def formatBlockHTML (rt : RichText) : String :=
  let t := replaceChar '·' "-" rt.plainText
  let t := replaceChar '\n' "<br />" t
  let t := if rt.annotations.bold then "<strong>" ++ t ++ "</strong>" else t
  let t := if rt.annotations.italic then "<em>" ++ t ++ "</em>" else t
  let t := if rt.annotations.underline then "<u>" ++ t ++ "</u>" else t
  let t := if rt.annotations.strikethrough then "<del>" ++ t ++ "</del>" else t
  let t := if rt.annotations.code then "<code>" ++ t ++ "</code>" else t
  t

/-- Wrap a string in an HTML tag pair (opening and closing tag given). -/
def wrapTag (opening closing : String) (s : String) : String :=
  opening ++ s ++ closing

/-- Conditionally wrap a string in an HTML tag pair. -/
def wrapIf (b : Bool) (opening closing : String) (s : String) : String :=
  if b then wrapTag opening closing s else s

/-- Spec-level run renderer, written from the specification's words: the
text first has every literal `·` replaced by `-` and every newline by a
line break, and is then wrapped in each applicable tag exactly once, the
wraps composing in the fixed nesting order bold → italic → underline →
strikethrough → code (bold innermost, each wrap applied only if its flag
is set). -/
def renderRunSpec (rt : RichText) : String :=
  wrapIf rt.annotations.code "<code>" "</code>"
    (wrapIf rt.annotations.strikethrough "<del>" "</del>"
      (wrapIf rt.annotations.underline "<u>" "</u>"
        (wrapIf rt.annotations.italic "<em>" "</em>"
          (wrapIf rt.annotations.bold "<strong>" "</strong>"
            (replaceChar '\n' "<br />" (replaceChar '·' "-" rt.plainText))))))

/-- C1: for every rich-text run and every combination of the five style
flags, `formatBlockHTML` first replaces every literal `·` with `-` and
every newline with a line break, and then wraps the text in each
applicable tag exactly once, in the fixed order bold, italic, underline,
strikethrough, code, each wrap applied only if its flag is set, the wraps
nesting when several flags are set: it coincides with the spec-level
renderer `renderRunSpec` on every input. -/
theorem C1_run_styling : ∀ rt : RichText, formatBlockHTML rt = renderRunSpec rt := by
  intro rt
  rfl

/-! ## The response cache (`cache/cache.go`)

Time instants are `Nat`; the `items` map is an association list in which a
`Set` prepends the new binding and `Get` reads the most recent one, giving
exactly Go's map-overwrite semantics.  The reader/writer lock is
concurrency plumbing with no effect on the sequential contract. -/

/-- Go `CacheItem`: a stored value with its absolute expiry instant. -/
structure CacheItem (α : Type) where
  data : α
  expiresAt : Nat
deriving Repr, DecidableEq

/-- Go `Cache`: the in-memory cache (its `items` map). -/
structure Cache (α : Type) where
  items : List (String × CacheItem α) := []
deriving Repr, DecidableEq

/-- Go `Cache.Set(key, data, ttl)` called at instant `now`: stores the
value with absolute expiry `now + ttl`. -/
def Cache.set {α : Type} (c : Cache α) (key : String) (data : α) (ttl : Nat)
    (now : Nat) : Cache α :=
  { items := (key, { data := data, expiresAt := now + ttl }) :: c.items }

/-- Go `Cache.Get(key)` read at instant `now`: `(nil, false)` if the key is
absent or the item has expired (`item.ExpiresAt.Before(now)`), otherwise
`(item.Data, true)`. -/
def Cache.get {α : Type} (c : Cache α) (key : String) (now : Nat) :
    Option α × Bool :=
  match c.items.find? (fun kv => kv.1 == key) with
  | none => (none, false)
  | some kv => if kv.2.expiresAt < now then (none, false) else (some kv.2.data, true)

/-- Go `Cache.CleanUp()` run at instant `now`: evict every expired entry. -/
def Cache.cleanUp {α : Type} (c : Cache α) (now : Nat) : Cache α :=
  { items := c.items.filter (fun kv => !(kv.2.expiresAt < now)) }

/-- C2 counterexample: the claim says a `Get` returns `(value, true)`
exactly when the current time is strictly before the expiry instant; but
for a `Set` at instant 0 with TTL 600, a `Get` at the expiry instant 600
itself still returns `(value, true)` (the code only treats the entry as
expired when `ExpiresAt` is strictly before now), while `600 < 0 + 600` is
false — so the claim's "strictly before" characterisation is wrong at the
boundary. -/
theorem C2_cache_expiry_cex :
    Cache.get (Cache.set ({} : Cache Nat) "k" 42 600 0) "k" 600 = (some 42, true)
    ∧ ¬ (600 < 0 + 600) := by
  exact ⟨rfl, by omega⟩

/-- C2 amended: `Set` stores the value with absolute expiry `now + ttl`,
and a `Get` of that key at instant `t` returns `(value, true)` exactly when
`t` is at or before the expiry instant (`t ≤ now + ttl`), and
`(nil, false)` otherwise.  In particular a `Get` immediately after the
`Set` (`t = now`) finds the value, and any `Get` strictly after the expiry
instant returns not-found. -/
theorem C2_cache_expiry :
    ∀ {α : Type} (c : Cache α) (key : String) (v : α) (ttl now t : Nat),
      Cache.get (Cache.set c key v ttl now) key t =
        if t ≤ now + ttl then (some v, true) else (none, false) := by
  intro α c key v ttl now t
  simp only [Cache.get, Cache.set, List.find?, beq_self_eq_true]
  by_cases h : t ≤ now + ttl
  · rw [if_pos h, if_neg (by omega)]
  · rw [if_neg h, if_pos (by omega)]

/-! ## The block data model (from the Go struct declarations)

Pure data-shape plumbing: each Go struct becomes a Lean structure with
default field values so concrete witnesses only need to mention the fields
they use.  Creation/edit timestamps and user metadata, which no code path
reads, are omitted. -/

/-- Go `Parent` (the parent object of a block). -/
structure Parent where
  type : String := ""
  pageId : String := ""
deriving Repr, DecidableEq

/-- Go `Heading` (payload of `heading_1` / `heading_2` / `heading_3`). -/
structure Heading where
  richText : List RichText := []
  isToggleable : Bool := false
  color : String := ""
deriving Repr, DecidableEq

/-- Go `Paragraph` (also used as the `bulleted_list_item` payload). -/
structure Paragraph where
  richText : List RichText := []
  color : String := ""
deriving Repr, DecidableEq

/-- Go `Divider` (empty payload). -/
structure Divider where
deriving Repr, DecidableEq

/-- Go `TableCell`: one rich-text run inside a table cell. -/
structure TableCell where
  type : String := ""
  annotations : Annotations := {}
  plainText : String := ""
  href : String := ""
  mention : Option Mention := none
deriving Repr, DecidableEq

/-- Go `TableRow`: a row is a list of cells, each cell a list of runs. -/
structure TableRow where
  cells : List (List TableCell) := []
deriving Repr, DecidableEq

/-- Go `Table` (payload of a `table` block; its rows are fetched
separately as child blocks). -/
structure Table where
  tableWidth : Nat := 0
  hasColumnHeader : Bool := false
  hasRowHeader : Bool := false
  rows : List TableRow := []
deriving Repr, DecidableEq

/-- Go `NumberedListItem`. -/
structure NumberedListItem where
  richText : List RichText := []
  color : String := ""
deriving Repr, DecidableEq

/-- Go `ToDoItem`. -/
structure ToDoItem where
  richText : List RichText := []
  checked : Bool := false
  color : String := ""
deriving Repr, DecidableEq

/-- Go `CodeBlock`. -/
structure CodeBlock where
  richText : List RichText := []
  language : String := ""
deriving Repr, DecidableEq

/-- Go `Quote`. -/
structure Quote where
  richText : List RichText := []
  color : String := ""
deriving Repr, DecidableEq

/-- Go `Icon`. -/
structure Icon where
  type : String := ""
  emoji : String := ""
deriving Repr, DecidableEq

/-- Go `Callout`. -/
structure Callout where
  richText : List RichText := []
  icon : Icon := {}
  color : String := ""
deriving Repr, DecidableEq

/-- Go `File` (a file-hosted asset with its URL). -/
structure File where
  url : String := ""
  expiryTime : String := ""
deriving Repr, DecidableEq

/-- Go `Link` (an external URL). -/
structure Link where
  url : String := ""
deriving Repr, DecidableEq

/-- Go `Image` (either file-hosted or external; a nil pointer is
`none`). -/
structure Image where
  type : String := ""
  file : Option File := none
  external : Option Link := none
deriving Repr, DecidableEq

/-- Go `LinkToPage`. -/
structure LinkToPage where
  type : String := ""
  pageId : String := ""
deriving Repr, DecidableEq

/-- Go `Bookmark`. -/
structure Bookmark where
  url : String := ""
  caption : List RichText := []
deriving Repr, DecidableEq

/-- Go `ChildPage`. -/
structure ChildPage where
  title : String := ""
deriving Repr, DecidableEq

/-- Go `NotionBlock`: the tagged union over block variants.  Exactly one
payload pointer is non-nil per block, selected by `type`; a nil payload
pointer is `none`. -/
structure NotionBlock where
  object : String := ""
  id : String := ""
  parent : Parent := {}
  hasChildren : Bool := false
  archived : Bool := false
  inTrash : Bool := false
  type : String := ""
  annotations : Annotations := {}
  heading1 : Option Heading := none
  heading2 : Option Heading := none
  heading3 : Option Heading := none
  bulletedListItem : Option Paragraph := none
  paragraph : Option Paragraph := none
  divider : Option Divider := none
  table : Option Table := none
  numberedListItem : Option NumberedListItem := none
  toDoItem : Option ToDoItem := none
  code : Option CodeBlock := none
  quote : Option Quote := none
  callout : Option Callout := none
  image : Option Image := none
  file : Option File := none
  bookmark : Option Bookmark := none
  tableRows : Option TableRow := none
  linkToPage : Option LinkToPage := none
  childPage : Option ChildPage := none
deriving Repr, DecidableEq

/-! ## The dynamic property map (`map[string]interface{}`)

Decoded JSON values are modelled by `JValue`; Go type assertions become
the partial projections below (`none` = assertion failure). -/

/-- A decoded JSON value, as stored in a page's open property map. -/
inductive JValue where
  | str (s : String)
  | num (n : Int)
  | boolean (b : Bool)
  | null
  | arr (items : List JValue)
  | obj (fields : List (String × JValue))
deriving Repr

/-- Go type assertion `v.(map[string]interface{})` (the projection; a
comma-ok assertion inspects the `Option`, a bare assertion panics on
`none`). -/
def JValue.asObj : JValue → Option (List (String × JValue))
  | .obj fields => some fields
  | _ => none

/-- Go type assertion `v.([]interface{})`. -/
def JValue.asArr : JValue → Option (List JValue)
  | .arr items => some items
  | _ => none

/-- Go type assertion `v.(string)`. -/
def JValue.asStr : JValue → Option String
  | .str s => some s
  | _ => none

/-- Go map lookup `m["k"]`: `none` is the nil interface returned for an
absent key. -/
def lookupField (fields : List (String × JValue)) (k : String) : Option JValue :=
  (fields.find? (fun kv => kv.1 == k)).map (fun kv => kv.2)

/-- Go `NotionPage`: identity plus the open property map. -/
structure NotionPage where
  object : String := ""
  id : String := ""
  properties : List (String × JValue) := []
deriving Repr

/-- Go `NotionBlockChildrenResponse`. -/
structure NotionBlockChildrenResponse where
  results : List NotionBlock := []
  nextCursor : String := ""
  hasMore : Bool := false
deriving Repr, DecidableEq

/-- Go `NotionQueryResponse`. -/
structure NotionQueryResponse where
  results : List NotionPage := []
  nextCursor : String := ""
  hasMore : Bool := false
deriving Repr

/-! ## The fetch layer and its rate-limit retry policy

Each fetch function is driven by the finite list of HTTP exchanges the
server would answer with, in order; the function consumes one exchange per
attempt.  It returns the requests it issued, the total seconds slept, and
its outcome: `none` when the exchange list was exhausted while still
retrying (the real code would still be looping), or `some` of the Go
return value (`Except.error ()` = a returned error).

Note the per-call `cache.NewCache()` in the source: every call starts from
a fresh empty cache, so the cache lookup always misses and is elided here.
`decodeResult` models `json.Unmarshal` of the response body into the
target struct (`none` = decode error).  Go's `Unmarshal` ignores unknown
and missing object fields, so the JSON error body of a non-2xx response
typically decodes successfully into a zero-valued struct. -/

/-- The identity of one HTTP request: endpoint template, resource id, and
pagination cursor. -/
structure Request where
  endpoint : String
  id : String
  cursor : String
deriving Repr, DecidableEq

/-- One HTTP exchange: the response status and the outcome of decoding the
response body into the target shape. -/
structure HttpExchange (α : Type) where
  status : Nat
  decodeResult : Option α
deriving Repr

/-- The block-children endpoint template used by `fetchChildren`. -/
def childrenEndpoint : String :=
  "https://api.notion.com/v1/blocks/%s/children?page_size=100"

/-- The database-query endpoint template used by
`fetchPagesFromDatabase`. -/
def databaseQueryEndpoint : String :=
  "https://api.notion.com/v1/databases/%s/query"

/-- The page endpoint template used by `fetchPage`. -/
def pageEndpoint : String :=
  "https://api.notion.com/v1/pages/%s"

/-- Model of Go `fetchChildren(token, blockID, cursor)` (source lines
238-289): on HTTP 429 sleep 3 seconds and retry the same call; otherwise
decode the body, surfacing a decode failure as an error.  Returns
(requests issued, seconds slept, outcome). -/
def fetchChildren (blockID cursor : String) :
    List (HttpExchange NotionBlockChildrenResponse) →
    List Request × Nat × Option (Except Unit NotionBlockChildrenResponse)
  | [] => ([], 0, none)
  | ex :: rest =>
    let req : Request := { endpoint := childrenEndpoint, id := blockID, cursor := cursor }
    if ex.status = 429 then
      let r := fetchChildren blockID cursor rest
      (req :: r.1, 3 + r.2.1, r.2.2)
    else
      match ex.decodeResult with
      | none => ([req], 0, some (Except.error ()))
      | some d => ([req], 0, some (Except.ok d))

/-- Model of Go `fetchPagesFromDatabase(token, databaseID, cursor)`
(source lines 292-342), with the same retry skeleton as
`fetchChildren`. -/
def fetchPagesFromDatabase (databaseID cursor : String) :
    List (HttpExchange NotionQueryResponse) →
    List Request × Nat × Option (Except Unit NotionQueryResponse)
  | [] => ([], 0, none)
  | ex :: rest =>
    let req : Request := { endpoint := databaseQueryEndpoint, id := databaseID, cursor := cursor }
    if ex.status = 429 then
      let r := fetchPagesFromDatabase databaseID cursor rest
      (req :: r.1, 3 + r.2.1, r.2.2)
    else
      match ex.decodeResult with
      | none => ([req], 0, some (Except.error ()))
      | some d => ([req], 0, some (Except.ok d))

/-- Model of Go `fetchPage(token, pageID)` (source lines 365-410); the
page endpoint takes no cursor. -/
def fetchPage (pageID : String) :
    List (HttpExchange NotionPage) →
    List Request × Nat × Option (Except Unit NotionPage)
  | [] => ([], 0, none)
  | ex :: rest =>
    let req : Request := { endpoint := pageEndpoint, id := pageID, cursor := "" }
    if ex.status = 429 then
      let r := fetchPage pageID rest
      (req :: r.1, 3 + r.2.1, r.2.2)
    else
      match ex.decodeResult with
      | none => ([req], 0, some (Except.error ()))
      | some d => ([req], 0, some (Except.ok d))

/-- C3: whenever the response status is 429, each fetch operation sleeps a
fixed 3 seconds and then retries the identical request — same endpoint, id
and cursor — unconditionally; and with every response a 429 the operation
never returns at all (no retry limit), so a 429 is never surfaced to the
caller: for each of `fetchChildren`, `fetchPagesFromDatabase` and
`fetchPage`, (a) a leading 429 exchange adds one identical request and 3
seconds of sleep and leaves the outcome exactly that of the remaining
exchanges, and (b) a run of exchanges that are all 429s produces one
identical request and 3 seconds of sleep per exchange and no outcome
whatsoever — in particular never an error. -/
theorem C3_rate_limit_retry :
    (∀ (blockID cursor : String) (ex : HttpExchange NotionBlockChildrenResponse) rest,
       ex.status = 429 →
       fetchChildren blockID cursor (ex :: rest) =
         ({ endpoint := childrenEndpoint, id := blockID, cursor := cursor } ::
            (fetchChildren blockID cursor rest).1,
          3 + (fetchChildren blockID cursor rest).2.1,
          (fetchChildren blockID cursor rest).2.2))
    ∧ (∀ (blockID cursor : String) rs,
       (∀ ex ∈ rs, ex.status = 429) →
       fetchChildren blockID cursor rs =
         (List.replicate rs.length
            { endpoint := childrenEndpoint, id := blockID, cursor := cursor },
          3 * rs.length, none))
    ∧ (∀ (databaseID cursor : String) (ex : HttpExchange NotionQueryResponse) rest,
       ex.status = 429 →
       fetchPagesFromDatabase databaseID cursor (ex :: rest) =
         ({ endpoint := databaseQueryEndpoint, id := databaseID, cursor := cursor } ::
            (fetchPagesFromDatabase databaseID cursor rest).1,
          3 + (fetchPagesFromDatabase databaseID cursor rest).2.1,
          (fetchPagesFromDatabase databaseID cursor rest).2.2))
    ∧ (∀ (databaseID cursor : String) rs,
       (∀ ex ∈ rs, ex.status = 429) →
       fetchPagesFromDatabase databaseID cursor rs =
         (List.replicate rs.length
            { endpoint := databaseQueryEndpoint, id := databaseID, cursor := cursor },
          3 * rs.length, none))
    ∧ (∀ (pageID : String) (ex : HttpExchange NotionPage) rest,
       ex.status = 429 →
       fetchPage pageID (ex :: rest) =
         ({ endpoint := pageEndpoint, id := pageID, cursor := "" } ::
            (fetchPage pageID rest).1,
          3 + (fetchPage pageID rest).2.1,
          (fetchPage pageID rest).2.2))
    ∧ (∀ (pageID : String) rs,
       (∀ ex ∈ rs, ex.status = 429) →
       fetchPage pageID rs =
         (List.replicate rs.length
            { endpoint := pageEndpoint, id := pageID, cursor := "" },
          3 * rs.length, none)) := by
  refine ⟨?_, ?_, ?_, ?_, ?_, ?_⟩
  · intro blockID cursor ex rest h
    simp [fetchChildren, h]
  · intro blockID cursor rs h
    induction rs with
    | nil => simp [fetchChildren]
    | cons ex rest ih =>
      have h429 : ex.status = 429 := h ex (by simp)
      have hrest : ∀ e ∈ rest, e.status = 429 := fun e he => h e (by simp [he])
      have h3 : 3 + 3 * rest.length = 3 * (rest.length + 1) := by omega
      simp only [fetchChildren, h429, if_pos, ih hrest, List.length_cons,
        List.replicate_succ, h3]
  · intro databaseID cursor ex rest h
    simp [fetchPagesFromDatabase, h]
  · intro databaseID cursor rs h
    induction rs with
    | nil => simp [fetchPagesFromDatabase]
    | cons ex rest ih =>
      have h429 : ex.status = 429 := h ex (by simp)
      have hrest : ∀ e ∈ rest, e.status = 429 := fun e he => h e (by simp [he])
      have h3 : 3 + 3 * rest.length = 3 * (rest.length + 1) := by omega
      simp only [fetchPagesFromDatabase, h429, if_pos, ih hrest, List.length_cons,
        List.replicate_succ, h3]
  · intro pageID ex rest h
    simp [fetchPage, h]
  · intro pageID rs h
    induction rs with
    | nil => simp [fetchPage]
    | cons ex rest ih =>
      have h429 : ex.status = 429 := h ex (by simp)
      have hrest : ∀ e ∈ rest, e.status = 429 := fun e he => h e (by simp [he])
      have h3 : 3 + 3 * rest.length = 3 * (rest.length + 1) := by omega
      simp only [fetchPage, h429, if_pos, ih hrest, List.length_cons,
        List.replicate_succ, h3]

/-- A 429 exchange answered to the block-children endpoint. -/
def rateLimited429c : HttpExchange NotionBlockChildrenResponse :=
  { status := 429, decodeResult := none }

/-- A 429 exchange answered to the database-query endpoint. -/
def rateLimited429q : HttpExchange NotionQueryResponse :=
  { status := 429, decodeResult := none }

/-- A 429 exchange answered to the page endpoint. -/
def rateLimited429p : HttpExchange NotionPage :=
  { status := 429, decodeResult := none }

/-- C3 witness: the retry behaviour at concrete inputs — one leading 429
for each operation, and an all-429 list of length 2. -/
theorem C3_rate_limit_retry_witness :
    (fetchChildren "blk" "cur" (rateLimited429c :: [{ status := 200, decodeResult := some {} }]) =
       ({ endpoint := childrenEndpoint, id := "blk", cursor := "cur" } ::
          (fetchChildren "blk" "cur" [{ status := 200, decodeResult := some {} }]).1,
        3 + (fetchChildren "blk" "cur" [{ status := 200, decodeResult := some {} }]).2.1,
        (fetchChildren "blk" "cur" [{ status := 200, decodeResult := some {} }]).2.2))
    ∧ (fetchChildren "blk" "cur" [rateLimited429c, rateLimited429c] =
       (List.replicate 2 { endpoint := childrenEndpoint, id := "blk", cursor := "cur" },
        3 * 2, none))
    ∧ (fetchPagesFromDatabase "db" "" (rateLimited429q :: []) =
       ({ endpoint := databaseQueryEndpoint, id := "db", cursor := "" } ::
          (fetchPagesFromDatabase "db" "" []).1,
        3 + (fetchPagesFromDatabase "db" "" []).2.1,
        (fetchPagesFromDatabase "db" "" []).2.2))
    ∧ (fetchPage "pg" (rateLimited429p :: []) =
       ({ endpoint := pageEndpoint, id := "pg", cursor := "" } ::
          (fetchPage "pg" []).1,
        3 + (fetchPage "pg" []).2.1,
        (fetchPage "pg" []).2.2)) := by
  refine ⟨?_, ?_, ?_, ?_⟩
  · exact C3_rate_limit_retry.1 "blk" "cur" rateLimited429c _ rfl
  · have := C3_rate_limit_retry.2.1 "blk" "cur" [rateLimited429c, rateLimited429c]
      (by intro e he; simp [rateLimited429c] at he; simp [he, rateLimited429c])
    simpa using this
  · exact C3_rate_limit_retry.2.2.1 "db" "" rateLimited429q [] rfl
  · exact C3_rate_limit_retry.2.2.2.2.1 "pg" rateLimited429p [] rfl

/-- C4 counterexample: the claim says any non-2xx status other than 429 is
surfaced as an error.  But the code never inspects the status except for
429: here a 500 response whose JSON body decodes (Go's `Unmarshal`
ignores unknown fields, so a standard JSON error body decodes into the
zero-valued struct) is returned as a successful result with no error. -/
theorem C4_non2xx_not_error_cex :
    fetchChildren "blk" "" [{ status := 500, decodeResult := some {} }] =
      ([{ endpoint := childrenEndpoint, id := "blk", cursor := "" }], 0,
       some (Except.ok ({} : NotionBlockChildrenResponse))) := by
  rfl

/-- C4 amended: for every fetch operation, a JSON-decode failure of the
response body is surfaced as an error to the immediate caller and is not
retried (exactly one request is issued); but a non-2xx status other than
429 is not itself checked — the body of such a response is decoded exactly
like a success, the decoded value is returned with no error whenever
decoding succeeds, and in either case the request is not retried. -/
theorem C4_error_surfacing :
    (∀ (blockID cursor : String) (ex : HttpExchange NotionBlockChildrenResponse) rest,
       ex.status ≠ 429 → ex.decodeResult = none →
       fetchChildren blockID cursor (ex :: rest) =
         ([{ endpoint := childrenEndpoint, id := blockID, cursor := cursor }], 0,
          some (Except.error ())))
    ∧ (∀ (blockID cursor : String) (ex : HttpExchange NotionBlockChildrenResponse) rest d,
       ex.status ≠ 429 → ex.decodeResult = some d →
       fetchChildren blockID cursor (ex :: rest) =
         ([{ endpoint := childrenEndpoint, id := blockID, cursor := cursor }], 0,
          some (Except.ok d)))
    ∧ (∀ (databaseID cursor : String) (ex : HttpExchange NotionQueryResponse) rest,
       ex.status ≠ 429 → ex.decodeResult = none →
       fetchPagesFromDatabase databaseID cursor (ex :: rest) =
         ([{ endpoint := databaseQueryEndpoint, id := databaseID, cursor := cursor }], 0,
          some (Except.error ())))
    ∧ (∀ (databaseID cursor : String) (ex : HttpExchange NotionQueryResponse) rest d,
       ex.status ≠ 429 → ex.decodeResult = some d →
       fetchPagesFromDatabase databaseID cursor (ex :: rest) =
         ([{ endpoint := databaseQueryEndpoint, id := databaseID, cursor := cursor }], 0,
          some (Except.ok d)))
    ∧ (∀ (pageID : String) (ex : HttpExchange NotionPage) rest,
       ex.status ≠ 429 → ex.decodeResult = none →
       fetchPage pageID (ex :: rest) =
         ([{ endpoint := pageEndpoint, id := pageID, cursor := "" }], 0,
          some (Except.error ())))
    ∧ (∀ (pageID : String) (ex : HttpExchange NotionPage) rest d,
       ex.status ≠ 429 → ex.decodeResult = some d →
       fetchPage pageID (ex :: rest) =
         ([{ endpoint := pageEndpoint, id := pageID, cursor := "" }], 0,
          some (Except.ok d))) := by
  refine ⟨?_, ?_, ?_, ?_, ?_, ?_⟩
  · intro _ _ ex rest h hd
    simp [fetchChildren, h, hd]
  · intro _ _ ex rest d h hd
    simp [fetchChildren, h, hd]
  · intro _ _ ex rest h hd
    simp [fetchPagesFromDatabase, h, hd]
  · intro _ _ ex rest d h hd
    simp [fetchPagesFromDatabase, h, hd]
  · intro _ ex rest h hd
    simp [fetchPage, h, hd]
  · intro _ ex rest d h hd
    simp [fetchPage, h, hd]

/-- C4 witness: concrete instances — a decode failure on a 200 response is
surfaced once, and a decodable 404 response is returned as a success. -/
theorem C4_error_surfacing_witness :
    (fetchChildren "blk" "" [{ status := 200, decodeResult := none }] =
       ([{ endpoint := childrenEndpoint, id := "blk", cursor := "" }], 0,
        some (Except.error ())))
    ∧ (fetchPagesFromDatabase "db" "" [{ status := 404, decodeResult := some {} }] =
       ([{ endpoint := databaseQueryEndpoint, id := "db", cursor := "" }], 0,
        some (Except.ok ({} : NotionQueryResponse))))
    ∧ (fetchPage "pg" [{ status := 200, decodeResult := none }] =
       ([{ endpoint := pageEndpoint, id := "pg", cursor := "" }], 0,
        some (Except.error ()))) := by
  refine ⟨?_, ?_, ?_⟩
  · exact C4_error_surfacing.1 "blk" "" _ [] (by decide) rfl
  · exact C4_error_surfacing.2.2.2.1 "db" ""
      { status := 404, decodeResult := some {} } [] ({} : NotionQueryResponse)
      (by decide) rfl
  · exact C4_error_surfacing.2.2.2.2.1 "pg" _ [] (by decide) rfl

/-! ## The property extractors (source lines 814-857)

Each extractor returns `none` exactly when the Go code would panic: a
comma-ok assertion (`v, ok := m[k].(T)`) that fails merely skips its
branch, while a bare assertion or an out-of-range index inside the branch
panics. -/

/-- The `Name` branch of `extractPageProperties`: with the `Name` property
absent (or not an object) the branch is skipped and the title keeps its
zero value `""`; inside the branch,
`titleProp["title"].([]interface{})[0].(map[string]interface{})["plain_text"].(string)`
is a chain of bare assertions, each of which panics (`none`) on
mismatch. -/
def extractTitle (props : List (String × JValue)) : Option String :=
  match (lookupField props "Name").bind JValue.asObj with
  | none => some ""
  | some titleProp =>
    match lookupField titleProp "title" with
    | none => none
    | some tv =>
      match tv.asArr with
      | none => none
      | some items =>
        match items.head? with
        | none => none
        | some first =>
          match first.asObj with
          | none => none
          | some firstObj =>
            match lookupField firstObj "plain_text" with
            | none => none
            | some pv => pv.asStr

/-- The `Slug` branch of `extractPageProperties`: with the `Slug` property
absent the slug keeps its zero value `""`; inside the branch the slug
defaults to the title, is replaced by the first rich-text run's plain text
when the list is non-empty, and has every space replaced by a hyphen. -/
def extractSlug (props : List (String × JValue)) (title : String) : Option String :=
  match (lookupField props "Slug").bind JValue.asObj with
  | none => some ""
  | some slugProp =>
    match lookupField slugProp "rich_text" with
    | none => none
    | some rv =>
      match rv.asArr with
      | none => none
      | some items =>
        match items.head? with
        | none => some (replaceChar ' ' "-" title)
        | some first =>
          match first.asObj with
          | none => none
          | some firstObj =>
            match lookupField firstObj "plain_text" with
            | none => none
            | some pv =>
              match pv.asStr with
              | none => none
              | some s => some (replaceChar ' ' "-" s)

/-- The `Keywords` branch of `extractPageProperties`: same shape as the
slug branch, but defaulting to `""` and without the space
replacement. -/
def extractKeywords (props : List (String × JValue)) : Option String :=
  match (lookupField props "Keywords").bind JValue.asObj with
  | none => some ""
  | some keywordsProp =>
    match lookupField keywordsProp "rich_text" with
    | none => none
    | some rv =>
      match rv.asArr with
      | none => none
      | some items =>
        match items.head? with
        | none => some ""
        | some first =>
          match first.asObj with
          | none => none
          | some firstObj =>
            match lookupField firstObj "plain_text" with
            | none => none
            | some pv => pv.asStr

/-- Model of Go `extractPageProperties(page)` (source lines 814-839):
reads the `Name`, `Slug` and `Keywords` properties, returning
`(title, slug, keywords)`; `none` models a panic. -/
def extractPageProperties (page : NotionPage) : Option (String × String × String) :=
  match extractTitle page.properties with
  | none => none
  | some title =>
    match extractSlug page.properties title with
    | none => none
    | some slug =>
      match extractKeywords page.properties with
      | none => none
      | some keywords => some (title, slug, keywords)

/-- The `Parent` branch of `extractPageRelations`: comma-ok on the
property itself, bare assertions inside. -/
def extractParentId (props : List (String × JValue)) : Option String :=
  match (lookupField props "Parent").bind JValue.asObj with
  | none => some ""
  | some parentProp =>
    match lookupField parentProp "relation" with
    | none => none
    | some rv =>
      match rv.asArr with
      | none => none
      | some items =>
        match items.head? with
        | none => some ""
        | some first =>
          match first.asObj with
          | none => none
          | some firstObj =>
            match lookupField firstObj "id" with
            | none => none
            | some iv => iv.asStr

/-- The `Sub-Items` branch of `extractPageRelations`: comma-ok on the
property itself; the relation list is traversed with a bare assertion on
every element. -/
def extractSubItems (props : List (String × JValue)) : Option (List String) :=
  match (lookupField props "Sub-Items").bind JValue.asObj with
  | none => some []
  | some subItemsProp =>
    match lookupField subItemsProp "relation" with
    | none => none
    | some rv =>
      match rv.asArr with
      | none => none
      | some items =>
        items.mapM (fun item =>
          match item.asObj with
          | none => none
          | some itemObj =>
            match lookupField itemObj "id" with
            | none => none
            | some iv => iv.asStr)

/-- Model of Go `extractPageRelations(page)` (source lines 841-857):
reads the `Parent` and `Sub-Items` relation properties, returning
`(parentId, childPages)`; `none` models a panic. -/
def extractPageRelations (page : NotionPage) : Option (String × List String) :=
  match extractParentId page.properties with
  | none => none
  | some parentId =>
    match extractSubItems page.properties with
    | none => none
    | some childPages => some (parentId, childPages)

/-- C9: property access on an absent key never errors — for every page,
each of the five named properties that is missing from the property map
contributes its empty/zero default (`""` for title, slug, keywords and
parent, `[]` for sub-items) without failing: (a)-(e) if the extraction
succeeds at all, a missing key yields the default for its field, and
(f)-(g) when all keys an extractor reads are missing, that extractor
succeeds outright with all defaults (whatever else the map contains). -/
theorem C9_missing_properties_safe :
    (∀ (page : NotionPage) t s k,
       lookupField page.properties "Name" = none →
       extractPageProperties page = some (t, s, k) → t = "")
    ∧ (∀ (page : NotionPage) t s k,
       lookupField page.properties "Slug" = none →
       extractPageProperties page = some (t, s, k) → s = "")
    ∧ (∀ (page : NotionPage) t s k,
       lookupField page.properties "Keywords" = none →
       extractPageProperties page = some (t, s, k) → k = "")
    ∧ (∀ (page : NotionPage) p cs,
       lookupField page.properties "Parent" = none →
       extractPageRelations page = some (p, cs) → p = "")
    ∧ (∀ (page : NotionPage) p cs,
       lookupField page.properties "Sub-Items" = none →
       extractPageRelations page = some (p, cs) → cs = [])
    ∧ (∀ page : NotionPage,
       lookupField page.properties "Name" = none →
       lookupField page.properties "Slug" = none →
       lookupField page.properties "Keywords" = none →
       extractPageProperties page = some ("", "", ""))
    ∧ (∀ page : NotionPage,
       lookupField page.properties "Parent" = none →
       lookupField page.properties "Sub-Items" = none →
       extractPageRelations page = some ("", [])) := by
  refine ⟨?_, ?_, ?_, ?_, ?_, ?_, ?_⟩
  · intro page t s k hn h
    have ht : extractTitle page.properties = some "" := by
      simp [extractTitle, hn]
    simp only [extractPageProperties, ht] at h
    rcases hs : extractSlug page.properties "" with _ | slug <;> rw [hs] at h
    · exact absurd h (by simp)
    rcases hk : extractKeywords page.properties with _ | kw <;> rw [hk] at h
    · exact absurd h (by simp)
    simp at h
    exact h.1.symm
  · intro page t s k hn h
    rcases ht : extractTitle page.properties with _ | title
    · simp [extractPageProperties, ht] at h
    · simp only [extractPageProperties, ht] at h
      have hs : extractSlug page.properties title = some "" := by
        simp [extractSlug, hn]
      rw [hs] at h
      rcases hk : extractKeywords page.properties with _ | kw <;> rw [hk] at h
      · exact absurd h (by simp)
      simp at h
      exact h.2.1.symm
  · intro page t s k hn h
    rcases ht : extractTitle page.properties with _ | title
    · simp [extractPageProperties, ht] at h
    · simp only [extractPageProperties, ht] at h
      rcases hs : extractSlug page.properties title with _ | slug <;> rw [hs] at h
      · exact absurd h (by simp)
      have hk : extractKeywords page.properties = some "" := by
        simp [extractKeywords, hn]
      rw [hk] at h
      simp at h
      exact h.2.2.symm
  · intro page p cs hn h
    have hp : extractParentId page.properties = some "" := by
      simp [extractParentId, hn]
    simp only [extractPageRelations, hp] at h
    rcases hc : extractSubItems page.properties with _ | cs0 <;> rw [hc] at h
    · exact absurd h (by simp)
    simp at h
    exact h.1.symm
  · intro page p cs hn h
    rcases hp : extractParentId page.properties with _ | p0
    · simp [extractPageRelations, hp] at h
    · simp only [extractPageRelations, hp] at h
      have hc : extractSubItems page.properties = some [] := by
        simp [extractSubItems, hn]
      rw [hc] at h
      simp at h
      exact h.2
  · intro page hn hs hk
    simp [extractPageProperties, extractTitle, extractSlug, extractKeywords,
      hn, hs, hk]
  · intro page hp hs
    simp [extractPageRelations, extractParentId, extractSubItems, hp, hs]

/-- A sample page whose property map holds none of the five named
properties. -/
def pageWithoutNamedProps : NotionPage :=
  { id := "p0", properties := [("Other", JValue.str "x")] }

/-- C9 witness: the extractors at the concrete page above — each missing
named property yields its default and nothing fails. -/
theorem C9_missing_properties_safe_witness :
    extractPageProperties pageWithoutNamedProps = some ("", "", "")
    ∧ extractPageRelations pageWithoutNamedProps = some ("", []) := by
  constructor
  · exact C9_missing_properties_safe.2.2.2.2.2.1 pageWithoutNamedProps rfl rfl rfl
  · exact C9_missing_properties_safe.2.2.2.2.2.2 pageWithoutNamedProps rfl rfl

/-! ## The renderer and exporter environment

The renderer and exporter re-enter the fetch layer (and the image
downloader) for mentions, tables, children and pages.  Those collaborator
calls are modelled as oracles: each oracle maps the call's arguments to
its final outcome, `none` meaning the call returned an error. -/

/-- The effectful collaborators of the renderer/exporter, plus the global
configuration (`conf.DocsRoot`, `conf.AssetsDir`). -/
structure Env where
  /-- Outcome of `fetchPage(token, pageID)`. -/
  pages : String → Option NotionPage
  /-- Outcome of `fetchPageContent(token, pageID)`. -/
  pageContent : String → Option (List NotionBlock)
  /-- Outcome of `fetchTableContent(token, tableBlockID)` (itself a
  pagination loop over `fetchChildren` filtering `table_row` results). -/
  tableContent : String → Option (List TableRow)
  /-- Outcome of `fetchChildren(token, blockID, cursor)` as used by the
  traversal loop `processBlocks`. -/
  childrenResp : String → String → Option NotionBlockChildrenResponse
  /-- Outcome of `downloadImage(url, dir)`: the stored filename. -/
  imageDownload : String → Option String
  /-- `conf.DocsRoot`. -/
  docsRoot : String := ""
  /-- `conf.AssetsDir`. -/
  assetsDir : String := ""

/-- An environment in which every collaborator call fails. -/
def emptyEnv : Env :=
  { pages := fun _ => none
    pageContent := fun _ => none
    tableContent := fun _ => none
    childrenResp := fun _ _ => none
    imageDownload := fun _ => none }

/-! ## The block renderer (`blocksToMarkdown` and helpers) -/

/-- Plain concatenation of the `PlainText` of a run list (used by the
heading, code and bookmark cases, which bypass `formatBlockHTML`). -/
def concatPlain : List RichText → String
  | [] => ""
  | t :: rest => t.plainText ++ concatPlain rest

/-- Concatenation of a run list with each run styled by
`formatBlockHTML` (used by the list-item, to-do, quote and callout
cases). -/
def concatFormatted : List RichText → String
  | [] => ""
  | t :: rest => formatBlockHTML t ++ concatFormatted rest

/-- The run loop of the `paragraph` case (source lines 546-562): a
`mention` run is resolved by fetching the referenced page (a fetch error
skips the run; a panic in the extractor propagates) and rendered as an
inline link with the docs-root prefix applied to absolute slugs; any
other run goes through `formatBlockHTML`. -/
def renderParagraphRuns (env : Env) : List RichText → Option String
  | [] => some ""
  | t :: rest =>
    if t.type = "mention" then
      match t.mention with
      | none => none
      | some m =>
        match env.pages m.page.id with
        | none => renderParagraphRuns env rest
        | some page =>
          match extractPageProperties page with
          | none => none
          | some (title, slug, _) =>
            let slug := if startsWithSlash slug then env.docsRoot ++ slug else slug
            match renderParagraphRuns env rest with
            | none => none
            | some r => some ("[" ++ title ++ "](" ++ slug ++ ")" ++ r)
    else
      match renderParagraphRuns env rest with
      | none => none
      | some r => some (formatBlockHTML t ++ r)

/-- The per-run styling chain of `renderTableCell` (source lines 781-799,
a verbatim duplicate in the source of the `formatBlockHTML` body applied
to the possibly mention-replaced text). -/
def styleCellRun (annotations : Annotations) (txt : String) : String :=
  let t := replaceChar '·' "-" txt
  let t := replaceChar '\n' "<br />" t
  let t := if annotations.bold then "<strong>" ++ t ++ "</strong>" else t
  let t := if annotations.italic then "<em>" ++ t ++ "</em>" else t
  let t := if annotations.underline then "<u>" ++ t ++ "</u>" else t
  let t := if annotations.strikethrough then "<del>" ++ t ++ "</del>" else t
  let t := if annotations.code then "<code>" ++ t ++ "</code>" else t
  t

/-- The run loop of `renderTableCell` (source lines 765-806): mention
resolution as in the paragraph case (the resolved link text then also
goes through the styling chain), every other run styled directly. -/
def renderCellRuns (env : Env) : List TableCell → Option String
  | [] => some ""
  | rt :: rest =>
    if rt.type = "mention" then
      match rt.mention with
      | none => none
      | some m =>
        match env.pages m.page.id with
        | none => renderCellRuns env rest
        | some page =>
          match extractPageProperties page with
          | none => none
          | some (title, slug, _) =>
            let slug := if startsWithSlash slug then env.docsRoot ++ slug else slug
            let txt := "[" ++ title ++ "](" ++ slug ++ ")"
            match renderCellRuns env rest with
            | none => none
            | some r => some (styleCellRun rt.annotations txt ++ r)
    else
      match renderCellRuns env rest with
      | none => none
      | some r => some (styleCellRun rt.annotations rt.plainText ++ r)

/-- Model of Go `renderTableCell(cell)` (source lines 763-811): style and
concatenate the runs, trim one trailing newline, then escape every pipe
to its HTML entity. -/
def renderTableCell (env : Env) (cell : List TableCell) : Option String :=
  match renderCellRuns env cell with
  | none => none
  | some cellContent =>
    some (replaceChar '|' "&#124;" (trimSuffixNewline cellContent))

/-- The cell loop of `renderTable`: each cell of a header row in `<th>`,
of any other row in `<td>`. -/
def renderRowCells (env : Env) (isHeader : Bool) : List (List TableCell) → Option String
  | [] => some ""
  | cell :: rest =>
    match renderTableCell env cell with
    | none => none
    | some s =>
      match renderRowCells env isHeader rest with
      | none => none
      | some r =>
        some ((if isHeader then "<th>" ++ s ++ "</th>" else "<td>" ++ s ++ "</td>") ++ r)

/-- The row loop of `renderTable` (`for i, row := range rows`): the row at
index 0 is the header row. -/
def renderRows (env : Env) : Nat → List TableRow → Option String
  | _, [] => some ""
  | i, row :: rest =>
    match renderRowCells env (i == 0) row.cells with
    | none => none
    | some cellsHtml =>
      match renderRows env (i + 1) rest with
      | none => none
      | some r => some ("<tr>" ++ cellsHtml ++ "</tr>" ++ r)

/-- Model of Go `renderTable(table, rows)` (source lines 737-760): empty
output for a nil table or an empty row list, otherwise the rows wrapped in
`<table>`. -/
def renderTable (env : Env) (table : Option Table) (rows : List TableRow) : Option String :=
  match table with
  | none => some ""
  | some _ =>
    if rows.isEmpty then some ""
    else
      match renderRows env 0 rows with
      | none => none
      | some body => some ("<table>" ++ body ++ "</table>")

/-- The block types the renderer's switch recognises with a dedicated
rendering case (everything else falls to the `default` arm; the
`"unsupported"` case is a separate, empty arm). -/
def renderedBlockTypes : List String :=
  ["paragraph", "heading_1", "heading_2", "heading_3", "bulleted_list_item",
   "table", "table_row", "divider", "numbered_list_item", "to_do", "code",
   "quote", "callout", "image", "file", "bookmark", "link_to_page"]

/-- The switch statement of `blocksToMarkdown` (source lines 544-694) for
one block: returns the fragment written for the block and a flag that is
`true` exactly when the Go code executes `continue` for this block (the
`link_to_page` fetch-error path), which skips the has-children step.  A
nil payload dereference is a panic (`none`).  The file-system side
effects of the `image` case (asset-directory creation, the downloaded
bytes) are not tracked here; only the emitted markdown is. -/
def renderSwitch (env : Env) (block : NotionBlock) (isChildren : Bool) :
    Option (String × Bool) :=
  match block.type with
  | "paragraph" =>
    match block.paragraph with
    | none => none
    | some p =>
      match renderParagraphRuns env p.richText with
      | none => none
      | some txt => some (txt ++ "  \n", false)
  | "heading_1" =>
    match block.heading1 with
    | none => none
    | some h => some ("# " ++ concatPlain h.richText ++ "  \n", false)
  | "heading_2" =>
    match block.heading2 with
    | none => none
    | some h => some ("## " ++ concatPlain h.richText ++ "  \n", false)
  | "heading_3" =>
    match block.heading3 with
    | none => none
    | some h => some ("### " ++ concatPlain h.richText ++ "  \n", false)
  | "bulleted_list_item" =>
    match block.bulletedListItem with
    | none => none
    | some p =>
      let content := "- " ++ concatFormatted p.richText ++ "  \n"
      some (if isChildren then "\t" ++ content else content, false)
  | "table" =>
    match env.tableContent block.id with
    | none => some ("[Error: Could not fetch table content]\n", false)
    | some tableRows =>
      match renderTable env block.table tableRows with
      | none => none
      | some t => some (t ++ "  \n", false)
  | "table_row" =>
    match block.tableRows with
    | none => none
    | some tr =>
      match renderTable env block.table [tr] with
      | none => none
      | some t => some (t ++ "  \n", false)
  | "divider" => some ("\n--- \n", false)
  | "numbered_list_item" =>
    match block.numberedListItem with
    | none => none
    | some n =>
      let content := "1. " ++ concatFormatted n.richText ++ "  \n"
      some (if isChildren then "\t" ++ content else content, false)
  | "to_do" =>
    match block.toDoItem with
    | none => none
    | some td =>
      let checkbox := if td.checked then "[x]" else "[ ]"
      some (checkbox ++ " " ++ concatFormatted td.richText ++ "  \n", false)
  | "code" =>
    match block.code with
    | none => none
    | some cb =>
      some ("```" ++ cb.language ++ "  \n" ++ concatPlain cb.richText ++ "  \n```\n", false)
  | "quote" =>
    match block.quote with
    | none => none
    | some q => some ("> " ++ concatFormatted q.richText ++ "  \n", false)
  | "callout" =>
    match block.callout with
    | none => none
    | some c =>
      let icon := if c.icon.type = "emoji" then c.icon.emoji ++ " " else ""
      some ("> " ++ icon ++ concatFormatted c.richText ++ "  \n", false)
  | "image" =>
    match block.image with
    | none => none
    | some img =>
      match
        (if img.type = "file" then (img.file).map File.url
         else if img.type = "external" then (img.external).map Link.url
         else some "") with
      | none => none
      | some url =>
        match env.imageDownload url with
        | none => some ("![](" ++ url ++ ")\n\n", false)
        | some filename =>
          some ("![" ++ filename ++ "](/docs-images/" ++ filename ++ ")\n\n", false)
  | "file" =>
    match block.file with
    | none => none
    | some f => some ("[File](" ++ f.url ++ ")  \n", false)
  | "bookmark" =>
    match block.bookmark with
    | none => none
    | some bm => some ("[" ++ concatPlain bm.caption ++ "](" ++ bm.url ++ ")  \n", false)
  | "link_to_page" =>
    match block.linkToPage with
    | none => none
    | some l =>
      match env.pages l.pageId with
      | none => some ("", true)
      | some page =>
        match extractPageProperties page with
        | none => none
        | some (title, slug, _) =>
          let slug := if startsWithSlash slug then env.docsRoot ++ slug else slug
          some ("[" ++ title ++ "](" ++ slug ++ ")<br/>", false)
  | "unsupported" => some ("", false)
  | _ => some ("[Unsupported block type: " ++ block.type ++ "]  \n", false)

/-- The per-block loop of `blocksToMarkdown`, with the recursive
has-children rendering abstracted as `renderChildren` (tied back to the
recursion, with fuel, in `blocksToMarkdown` below): for each block, write
the switch's fragment, then — unless the switch executed `continue` —
append the recursively rendered children when `HasChildren` is set. -/
def renderBlocksWith (env : Env) (renderChildren : NotionBlock → Option String)
    (isChildren : Bool) : List NotionBlock → Option String
  | [] => some ""
  | b :: rest =>
    match renderSwitch env b isChildren with
    | none => none
    | some (out, skip) =>
      match (if skip then some "" else renderChildren b) with
      | none => none
      | some cp =>
        match renderBlocksWith env renderChildren isChildren rest with
        | none => none
        | some rp => some (out ++ cp ++ rp)

/-- Model of Go `blocksToMarkdown(token, blocks, isChildren)` (source
lines 539-710).  The fuel bounds the depth of has-children recursion
(which the Go code leaves unbounded and which may not terminate on cyclic
remote data); at fuel 0 the children render as `""`, exactly like the Go
fetch-error path.  A failed children fetch logs and appends nothing. -/
def blocksToMarkdown (env : Env) : Nat → List NotionBlock → Bool → Option String
  | 0, _, _ => some ""
  | fuel + 1, blocks, isChildren =>
    renderBlocksWith env
      (fun b =>
        if b.hasChildren then
          match env.pageContent b.id with
          | none => some ""
          | some children => blocksToMarkdown env fuel children true
        else some "")
      isChildren blocks

/-- The has-children step for one block at a given fuel, as appended by
`blocksToMarkdown` after the block's own fragment. -/
def childrenMarkdown (env : Env) (fuel : Nat) (b : NotionBlock) : Option String :=
  if b.hasChildren then
    match env.pageContent b.id with
    | none => some ""
    | some children => blocksToMarkdown env fuel children true
  else some ""

/-- Unfolding equation of `blocksToMarkdown` on a non-empty block list:
the switch fragment, then (unless the switch continued) the has-children
step, then the rest of the list. -/
theorem blocksToMarkdown_cons (env : Env) (fuel : Nat) (b : NotionBlock)
    (rest : List NotionBlock) (isC : Bool) :
    blocksToMarkdown env (fuel + 1) (b :: rest) isC =
      match renderSwitch env b isC with
      | none => none
      | some (out, skip) =>
        match (if skip then some "" else childrenMarkdown env fuel b) with
        | none => none
        | some cp =>
          match blocksToMarkdown env (fuel + 1) rest isC with
          | none => none
          | some rp => some (out ++ cp ++ rp) := by
  rfl

/-- The switch of `blocksToMarkdown` sends every type tag that is neither
a recognised rendered variant nor exactly `"unsupported"` to the default
arm, which emits the placeholder naming the unknown type. -/
theorem renderSwitch_default_arm (env : Env) (b : NotionBlock) (isC : Bool)
    (hmem : b.type ∉ renderedBlockTypes) (hne : b.type ≠ "unsupported") :
    renderSwitch env b isC =
      some ("[Unsupported block type: " ++ b.type ++ "]  \n", false) := by
  unfold renderSwitch
  split <;> simp_all [renderedBlockTypes]

/-- A block whose type tag is exactly `"unsupported"`, with no children. -/
def unsupportedBlock : NotionBlock := { type := "unsupported" }

/-- C5 counterexample: the claim says a block whose type tag is exactly
`"unsupported"` emits a visible placeholder naming the unknown type, never
a silent drop; but Go's `case "unsupported":` has an empty body and does
not fall through to `default`, so such a block renders as the empty
string — a silent drop. -/
theorem C5_unsupported_silent_drop_cex :
    blocksToMarkdown emptyEnv 1 [unsupportedBlock] false = some ""
    ∧ unsupportedBlock.type = "unsupported" := by
  exact ⟨rfl, rfl⟩

/-- C5 amended: for every block whose type tag is not one of the
recognised rendered variants and is also not exactly `"unsupported"`, the
renderer emits the visible placeholder `[Unsupported block type: <type>]`
into the output (followed by the block's has-children step and the rest of
the list); a block whose type tag is exactly `"unsupported"` is instead
silently dropped (see the counterexample). -/
theorem C5_unknown_type_placeholder :
    (∀ (env : Env) (b : NotionBlock) (isC : Bool),
       b.type ∉ renderedBlockTypes → b.type ≠ "unsupported" →
       renderSwitch env b isC =
         some ("[Unsupported block type: " ++ b.type ++ "]  \n", false))
    ∧ (∀ (env : Env) (fuel : Nat) (b : NotionBlock) (rest : List NotionBlock)
         (isC : Bool),
       b.type ∉ renderedBlockTypes → b.type ≠ "unsupported" →
       blocksToMarkdown env (fuel + 1) (b :: rest) isC =
         (childrenMarkdown env fuel b).bind (fun cp =>
           (blocksToMarkdown env (fuel + 1) rest isC).map (fun rp =>
             "[Unsupported block type: " ++ b.type ++ "]  \n" ++ cp ++ rp))) := by
  constructor
  · exact renderSwitch_default_arm
  · intro env fuel b rest isC hmem hne
    rw [blocksToMarkdown_cons, renderSwitch_default_arm env b isC hmem hne]
    cases childrenMarkdown env fuel b <;>
      cases blocksToMarkdown env (fuel + 1) rest isC <;> rfl

/-- A block with an unknown type tag (`child_database` has no case in the
renderer's switch), with no children. -/
def childDatabaseBlock : NotionBlock := { type := "child_database" }

/-- C5 witness: the amended claim at the concrete `child_database` block —
the placeholder names the unknown type. -/
theorem C5_unknown_type_placeholder_witness :
    renderSwitch emptyEnv childDatabaseBlock false =
      some ("[Unsupported block type: " ++ childDatabaseBlock.type ++ "]  \n", false)
    ∧ blocksToMarkdown emptyEnv 1 [childDatabaseBlock] false =
        (childrenMarkdown emptyEnv 0 childDatabaseBlock).bind (fun cp =>
          (blocksToMarkdown emptyEnv 1 [] false).map (fun rp =>
            "[Unsupported block type: " ++ childDatabaseBlock.type ++ "]  \n" ++ cp ++ rp)) := by
  constructor
  · exact C5_unknown_type_placeholder.1 emptyEnv childDatabaseBlock false
      (by decide) (by decide)
  · exact C5_unknown_type_placeholder.2 emptyEnv 0 childDatabaseBlock [] false
      (by decide) (by decide)

/-! ## Table rendering versus the spec's description (claim C8) -/

/-- The character `c` does not occur in the string `s`. -/
def charAbsent (c : Char) (s : String) : Prop := c ∉ s.data

instance (c : Char) (s : String) : Decidable (charAbsent c s) := by
  unfold charAbsent
  infer_instance

theorem charAbsent_append {c : Char} {a b : String}
    (ha : charAbsent c a) (hb : charAbsent c b) : charAbsent c (a ++ b) := by
  unfold charAbsent at *
  rw [String.data_append]
  simp only [List.mem_append]
  rintro (h | h)
  · exact ha h
  · exact hb h

/-- Replacing every occurrence of `c` by a `c`-free string leaves no
occurrence of `c`. -/
theorem charAbsent_replaceChar_self (c : Char) (r s : String)
    (hr : c ∉ r.data) : charAbsent c (replaceChar c r s) := by
  unfold charAbsent replaceChar
  show c ∉ s.data.foldr _ []
  induction s.data with
  | nil => simp
  | cons ch rest ih =>
    simp only [List.foldr_cons, List.mem_append]
    rintro (h | h)
    · by_cases hch : ch = c
      · rw [if_pos hch] at h
        exact hr h
      · rw [if_neg hch] at h
        simp at h
        exact hch (h ▸ rfl)
    · exact ih h

/-- The output of `formatBlockHTML` never contains a newline: the newline
replacement removes every `'\n'` and no wrap reintroduces one. -/
theorem charAbsent_newline_formatBlockHTML (rt : RichText) :
    charAbsent '\n' (formatBlockHTML rt) := by
  have hc : charAbsent '\n' (replaceChar '\n' "<br />" (replaceChar '·' "-" rt.plainText)) :=
    charAbsent_replaceChar_self _ _ _ (by decide)
  unfold formatBlockHTML
  dsimp only
  split_ifs <;>
    (repeat'
      first
        | exact hc
        | exact (by decide)
        | apply charAbsent_append)

/-- `trimSuffixNewline` is the identity on newline-free strings. -/
theorem trimSuffixNewline_of_charAbsent {s : String}
    (h : charAbsent '\n' s) : trimSuffixNewline s = s := by
  unfold trimSuffixNewline
  cases hl : s.data.getLast? with
  | none => rfl
  | some c =>
    have hc : c ∈ s.data := List.mem_of_mem_getLast? hl
    have : ¬ c = '\n' := fun he => h (he ▸ hc)
    dsimp only
    rw [if_neg this]

/-- The `TableCell` run shape coincides field-by-field with `RichText` on
everything the styling chain reads. -/
def cellRunToRichText (c : TableCell) : RichText :=
  { type := c.type
    annotations := c.annotations
    plainText := c.plainText
    mention := c.mention }

/-- The duplicated styling chain of `renderTableCell` is the ordinary
run-styling rule `formatBlockHTML`. -/
theorem styleCellRun_eq_formatBlockHTML (rt : TableCell) :
    styleCellRun rt.annotations rt.plainText = formatBlockHTML (cellRunToRichText rt) := by
  rfl

/-- Spec-level cell text, written from the specification's words: each run
styled by the same run-styling rule as ordinary rich text, concatenated,
with every `|` replaced by its HTML entity `&#124;`. -/
def specCellText (cell : List TableCell) : String :=
  replaceChar '|' "&#124;"
    (strConcat (cell.map (fun rt => formatBlockHTML (cellRunToRichText rt))))

/-- Spec-level row HTML: each cell wrapped in `<th>` for the header row
and `<td>` otherwise, the row wrapped in `<tr>`. -/
def specRowHTML (isHeader : Bool) (row : TableRow) : String :=
  "<tr>" ++
    strConcat (row.cells.map (fun cell =>
      if isHeader then "<th>" ++ specCellText cell ++ "</th>"
      else "<td>" ++ specCellText cell ++ "</td>")) ++ "</tr>"

/-- Spec-level table HTML: the first fetched row is the header row, all
subsequent rows are data rows, and the whole is wrapped in `<table>`. -/
def specTableHTML : List TableRow → String
  | [] => ""
  | first :: rest =>
    "<table>" ++ specRowHTML true first ++
      strConcat (rest.map (specRowHTML false)) ++ "</table>"

/-- On a cell whose runs are not mentions, the cell-run loop is the
concatenation of the runs styled by the ordinary run-styling rule. -/
theorem renderCellRuns_no_mention (env : Env) (cell : List TableCell)
    (h : ∀ rt ∈ cell, rt.type ≠ "mention") :
    renderCellRuns env cell =
      some (strConcat (cell.map (fun rt => formatBlockHTML (cellRunToRichText rt)))) := by
  induction cell with
  | nil => rfl
  | cons rt rest ih =>
    have hne : ¬ rt.type = "mention" := h rt (by simp)
    have hrest : ∀ r ∈ rest, r.type ≠ "mention" := fun r hr => h r (by simp [hr])
    rw [renderCellRuns, if_neg hne, ih hrest]
    rfl

/-- On a mention-free cell, `renderTableCell` produces exactly the
spec-level cell text (the trailing-newline trim is a no-op because the
styling chain removes every newline). -/
theorem renderTableCell_no_mention (env : Env) (cell : List TableCell)
    (h : ∀ rt ∈ cell, rt.type ≠ "mention") :
    renderTableCell env cell = some (specCellText cell) := by
  rw [renderTableCell, renderCellRuns_no_mention env cell h]
  have habs : charAbsent '\n'
      (strConcat (cell.map (fun rt => formatBlockHTML (cellRunToRichText rt)))) := by
    induction cell with
    | nil => exact (by decide)
    | cons rt rest ih =>
      exact charAbsent_append (charAbsent_newline_formatBlockHTML _)
        (ih (fun r hr => h r (by simp [hr])))
  dsimp only
  rw [trimSuffixNewline_of_charAbsent habs]
  rfl

/-- On mention-free cells, the cell loop of a row is the spec-level list
of tagged cells. -/
theorem renderRowCells_no_mention (env : Env) (isHeader : Bool)
    (cells : List (List TableCell))
    (h : ∀ cell ∈ cells, ∀ rt ∈ cell, rt.type ≠ "mention") :
    renderRowCells env isHeader cells =
      some (strConcat (cells.map (fun cell =>
        if isHeader then "<th>" ++ specCellText cell ++ "</th>"
        else "<td>" ++ specCellText cell ++ "</td>"))) := by
  induction cells with
  | nil => rfl
  | cons cell rest ih =>
    have h1 : ∀ rt ∈ cell, rt.type ≠ "mention" := fun rt hrt => h cell (by simp) rt hrt
    have hrest : ∀ c ∈ rest, ∀ rt ∈ c, rt.type ≠ "mention" :=
      fun c hc rt hrt => h c (by simp [hc]) rt hrt
    rw [renderRowCells, renderTableCell_no_mention env cell h1, ih hrest]
    cases isHeader <;> rfl

/-- Every row after the first (any index `i + 1`) renders as a data
row. -/
theorem renderRows_tail (env : Env) (rows : List TableRow)
    (h : ∀ r ∈ rows, ∀ cell ∈ r.cells, ∀ rt ∈ cell, rt.type ≠ "mention") :
    ∀ i : Nat, renderRows env (i + 1) rows =
      some (strConcat (rows.map (specRowHTML false))) := by
  induction rows with
  | nil => intro i; rfl
  | cons row rest ih =>
    intro i
    have h1 : ∀ cell ∈ row.cells, ∀ rt ∈ cell, rt.type ≠ "mention" :=
      fun c hc rt hrt => h row (by simp) c hc rt hrt
    have hrest : ∀ r ∈ rest, ∀ cell ∈ r.cells, ∀ rt ∈ cell, rt.type ≠ "mention" :=
      fun r hr => h r (by simp [hr])
    rw [renderRows]
    have hne : ((i + 1 : Nat) == 0) = false := by simp
    rw [hne, renderRowCells_no_mention env false row.cells h1, ih hrest (i + 1)]
    simp [specRowHTML, strConcat, String.append_assoc]

/-- C8: for every non-empty row list whose cell runs are ordinary (not
mentions), the table renderer wraps each cell of the first fetched row in
`<th>` tags and each cell of every subsequent row in `<td>` tags, each row
in `<tr>` and the whole in `<table>`, with cell text styled by the same
run-styling rule as ordinary rich text (`formatBlockHTML`) and every `|`
in cell text replaced by its HTML entity `&#124;`: the rendered table is
exactly the spec-level `specTableHTML`. -/
theorem C8_table_rendering :
    ∀ (env : Env) (tbl : Table) (rows : List TableRow),
      rows ≠ [] →
      (∀ r ∈ rows, ∀ cell ∈ r.cells, ∀ rt ∈ cell, rt.type ≠ "mention") →
      renderTable env (some tbl) rows = some (specTableHTML rows) := by
  intro env tbl rows hne h
  match rows, hne with
  | first :: rest, _ =>
    rw [renderTable]
    have hemp : (first :: rest).isEmpty = false := rfl
    rw [hemp]
    simp only [Bool.false_eq_true, if_false]
    have h1 : ∀ cell ∈ first.cells, ∀ rt ∈ cell, rt.type ≠ "mention" :=
      fun c hc rt hrt => h first (by simp) c hc rt hrt
    have hrest : ∀ r ∈ rest, ∀ cell ∈ r.cells, ∀ rt ∈ cell, rt.type ≠ "mention" :=
      fun r hr => h r (by simp [hr])
    rw [renderRows]
    have h0 : ((0 : Nat) == 0) = true := rfl
    rw [h0, renderRowCells_no_mention env true first.cells h1,
      renderRows_tail env rest hrest 0]
    simp only [specTableHTML, specRowHTML, Option.some.injEq]
    simp [String.append_assoc]

/-- A concrete 2-row, 2-column table whose first cell contains a pipe and
whose last cell is bold. -/
def sampleTableRows : List TableRow :=
  [{ cells := [[{ plainText := "a|b" }], [{ plainText := "c" }]] },
   { cells := [[{ plainText := "d" }],
               [{ plainText := "e", annotations := { bold := true } }]] }]

/-- C8 witness: the theorem at the concrete 2×2 table, together with the
evaluated output showing `<th>`/`<td>` placement and the escaped pipe. -/
theorem C8_table_rendering_witness :
    renderTable emptyEnv (some {}) sampleTableRows = some (specTableHTML sampleTableRows)
    ∧ specTableHTML sampleTableRows =
        "<table><tr><th>a&#124;b</th><th>c</th></tr><tr><td>d</td><td><strong>e</strong></td></tr></table>" := by
  constructor
  · exact C8_table_rendering emptyEnv {} sampleTableRows (by decide) (by decide)
  · rfl

/-! ## The page writer and the slug registry

`pageToMarkdown` threads the run-scoped slug registry
(`conf.slugRegistered`, a global in the source) explicitly: it consumes
the registry and returns the updated one.  Its outcome distinguishes a Go
panic (`Failure.panicked`, from the unchecked extractors) from a returned
error (`Failure.errored`, a failed content fetch). -/

/-- How a modelled Go computation fails: a panic (crashes the process) or
a returned `error` value. -/
inductive Failure where
  | panicked
  | errored
deriving Repr, DecidableEq

/-- The front-matter template of `pageToMarkdown` (the `fmt.Sprintf` raw
string at source lines 884-893). -/
def mdTemplate (title slug tags : String) (position : Nat) (content : String) : String :=
  "---\ntitle: " ++ title ++ "\nslug: " ++ slug ++ "\ntags: " ++ tags ++
    "\nsidebar_position: " ++ toString position ++ "\n---\n\n" ++ content ++ "\n"

/-- Model of Go `pageToMarkdown(token, page, position)` (source lines
860-893): extract the properties, fetch and render the page content,
strip parentheses from the slug, deduplicate it against the registry with
a `-dup` suffix, register it, and assemble the front matter plus body. -/
def pageToMarkdown (env : Env) (fuel : Nat) (page : NotionPage) (position : Nat)
    (reg : List String) : Except Failure String × List String :=
  match extractPageProperties page with
  | none => (Except.error Failure.panicked, reg)
  | some (title, slug, keywords) =>
    match env.pageContent page.id with
    | none => (Except.error Failure.errored, reg)
    | some blocks =>
      match blocksToMarkdown env fuel blocks false with
      | none => (Except.error Failure.panicked, reg)
      | some contentMarkdown =>
        let keywordString := "[" ++ keywords ++ "]"
        let slug := replaceChar '(' "" slug
        let slug := replaceChar ')' "" slug
        let slug := if stringExists reg slug then slug ++ "-dup" else slug
        (Except.ok (mdTemplate title slug keywordString position contentMarkdown),
         reg ++ [slug])

/-- C7: if two pages both compute the same (paren-stripped) slug `s`, not
yet registered, then writing the first page registers `s` unchanged and
its output carries slug `s`, and writing the second page afterwards
registers and uses the deterministic `s ++ "-dup"`: with both content
fetches succeeding, the two front matters carry slugs `s` and `s-dup` and
the registry grows from `reg` to `reg ++ [s]` to `reg ++ [s] ++
[s ++ "-dup"]`. -/
theorem C7_slug_dedup :
    ∀ (env : Env) (fuel : Nat) (p1 p2 : NotionPage) (pos1 pos2 : Nat)
      (reg : List String) (t1 k1 t2 k2 s s1 s2 : String)
      (bs1 bs2 : List NotionBlock) (c1 c2 : String),
      extractPageProperties p1 = some (t1, s1, k1) →
      extractPageProperties p2 = some (t2, s2, k2) →
      replaceChar ')' "" (replaceChar '(' "" s1) = s →
      replaceChar ')' "" (replaceChar '(' "" s2) = s →
      env.pageContent p1.id = some bs1 →
      env.pageContent p2.id = some bs2 →
      blocksToMarkdown env fuel bs1 false = some c1 →
      blocksToMarkdown env fuel bs2 false = some c2 →
      stringExists reg s = false →
      pageToMarkdown env fuel p1 pos1 reg =
        (Except.ok (mdTemplate t1 s ("[" ++ k1 ++ "]") pos1 c1), reg ++ [s])
      ∧ pageToMarkdown env fuel p2 pos2 (reg ++ [s]) =
        (Except.ok (mdTemplate t2 (s ++ "-dup") ("[" ++ k2 ++ "]") pos2 c2),
         reg ++ [s] ++ [s ++ "-dup"]) := by
  intro env fuel p1 p2 pos1 pos2 reg t1 k1 t2 k2 s s1 s2 bs1 bs2 c1 c2
  intro hx1 hx2 hs1 hs2 hc1 hc2 hb1 hb2 hreg
  constructor
  · simp [pageToMarkdown, hx1, hc1, hb1, hs1, hreg]
  · have hfound : stringExists (reg ++ [s]) s = true := by
      simp [stringExists]
    simp [pageToMarkdown, hx2, hc2, hb2, hs2, hfound]

/-- Property map fragment: a `Name` title property with the given plain
text. -/
def nameProp (text : String) : JValue :=
  JValue.obj [("title", JValue.arr [JValue.obj [("plain_text", JValue.str text)]])]

/-- Property map fragment: a `Slug` rich-text property with the given
plain text. -/
def slugProp (text : String) : JValue :=
  JValue.obj [("rich_text", JValue.arr [JValue.obj [("plain_text", JValue.str text)]])]

/-- Property map fragment: a `Sub-Items` relation property with the given
page ids. -/
def subItemsProp (ids : List String) : JValue :=
  JValue.obj [("relation", JValue.arr (ids.map (fun i => JValue.obj [("id", JValue.str i)])))]

/-- First sample page computing slug `intro`. -/
def introPage1 : NotionPage :=
  { id := "p1", properties := [("Name", nameProp "First"), ("Slug", slugProp "intro")] }

/-- Second sample page computing slug `intro`. -/
def introPage2 : NotionPage :=
  { id := "p2", properties := [("Name", nameProp "Second"), ("Slug", slugProp "intro")] }

/-- An environment in which every page's content fetch yields an empty
block list. -/
def emptyContentEnv : Env := { emptyEnv with pageContent := fun _ => some [] }

/-- C7 witness: the two concrete pages whose computed slugs are both
`intro` — the first output carries slug `intro`, the second
`intro ++ "-dup"`. -/
theorem C7_slug_dedup_witness :
    pageToMarkdown emptyContentEnv 1 introPage1 0 [] =
      (Except.ok (mdTemplate "First" "intro" "[]" 0 ""), [] ++ ["intro"])
    ∧ pageToMarkdown emptyContentEnv 1 introPage2 1 ([] ++ ["intro"]) =
      (Except.ok (mdTemplate "Second" ("intro" ++ "-dup") "[]" 1 ""),
       [] ++ ["intro"] ++ ["intro" ++ "-dup"]) := by
  have h := C7_slug_dedup emptyContentEnv 1 introPage1 introPage2 0 1 []
    "First" "" "Second" "" "intro" "intro" "intro" [] [] "" ""
    rfl rfl rfl rfl rfl rfl rfl rfl rfl
  simpa using h

/-! ## The tree exporter: `writeMarkdown` (source lines 896-962) -/

/-- One observable file-system effect of the exporter. -/
inductive FsEvent where
  /-- `os.MkdirAll(path, ...)` (the source guards it with an `os.Stat`
  existence check; the event means "ensure this directory exists"). -/
  | mkdirAll (path : String)
  /-- `os.WriteFile(path, content, 0644)`. -/
  | writeFile (path : String) (content : String)
deriving Repr, DecidableEq

/-- The path an event touches. -/
def eventPath : FsEvent → String
  | .mkdirAll p => p
  | .writeFile p _ => p

/-- The JSON escaping applied to the category label (source lines
940-946): backslash, quote, newline, tab, carriage return, backspace and
form feed, in that order. -/
def escapeTitleForJson (s : String) : String :=
  let s := replaceChar '\\' "\\\\" s
  let s := replaceChar '"' "\\\"" s
  let s := replaceChar '\n' "\\n" s
  let s := replaceChar '\t' "\\t" s
  let s := replaceChar '\r' "\\r" s
  let s := replaceChar '\x08' "\\b" s
  let s := replaceChar '\x0c' "\\f" s
  s

/-- The category-metadata file body (the `fmt.Sprintf` raw string at
source lines 948-951). -/
def categoryJson (label : String) (position : Nat) : String :=
  "\x7b\n\t\"label\": \"" ++ label ++ "\",\n\t\"position\": " ++
    toString position ++ "\n\x7d"

/-- The child-page loop of `writeMarkdown` (source lines 925-937), with
the recursive write abstracted as `wm` (tied back to `writeMarkdown`, at
decremented fuel, below).  A child whose fetch fails, or whose write
returns an error, is skipped (`continue`); a panic propagates; after the
first successful child write the has-children flag is `true`. -/
def writeChildrenWith
    (wm : String → NotionPage → Nat → List String →
      Except Failure (List FsEvent) × List String)
    (env : Env) (dir : String) :
    List String → Nat → List String → Bool →
    Except Failure (List FsEvent × List String × Bool)
  | [], _, reg, hasC => Except.ok ([], reg, hasC)
  | c :: cs, idx, reg, hasC =>
    match env.pages c with
    | none => writeChildrenWith wm env dir cs (idx + 1) reg hasC
    | some childPage =>
      match wm dir childPage idx reg with
      | (Except.error Failure.panicked, _) => Except.error Failure.panicked
      | (Except.error Failure.errored, regE) =>
        writeChildrenWith wm env dir cs (idx + 1) regE hasC
      | (Except.ok evs, regO) =>
        match writeChildrenWith wm env dir cs (idx + 1) regO true with
        | Except.error f => Except.error f
        | Except.ok (evsRest, regF, hasF) => Except.ok (evs ++ evsRest, regF, hasF)

/-- Model of Go `writeMarkdown(outputDir, token, page, position)` (source
lines 896-962): render the page (registering its slug first), then — when
the page has child-page relations — create the `<pageID>` subdirectory
and recursively write each child into it; finally write the page itself
as `index.md` plus a `_category_.json` when at least one child write
succeeded, and as `<pageID>.md` otherwise.  The fuel bounds the recursion
depth (unbounded in Go); at fuel 0 the children step is skipped.  On a
panic the collected events are discarded (the Go process dies). -/
def writeMarkdown (env : Env) : Nat → String → NotionPage → Nat → List String →
    Except Failure (List FsEvent) × List String
  | fuel, outputDir, page, position, reg =>
    match pageToMarkdown env fuel page position reg with
    | (Except.error f, reg') => (Except.error f, reg')
    | (Except.ok markdown, reg1) =>
      match extractPageRelations page with
      | none => (Except.error Failure.panicked, reg1)
      | some (_, childPages) =>
        let dir := if childPages.isEmpty then outputDir else outputDir ++ "/" ++ page.id
        let childStep :=
          if childPages.isEmpty then Except.ok ([], reg1, false)
          else
            match fuel with
            | 0 => Except.ok ([], reg1, false)
            | f + 1 =>
              writeChildrenWith (fun od p i r => writeMarkdown env f od p i r)
                env dir childPages 0 reg1 false
        match childStep with
        | Except.error f2 => (Except.error f2, reg1)
        | Except.ok (childEvents, reg2, hasC) =>
          match extractPageProperties page with
          | none => (Except.error Failure.panicked, reg2)
          | some (title0, _, _) =>
            let title := escapeTitleForJson title0
            let mkdirEvents : List FsEvent :=
              if childPages.isEmpty then [] else [FsEvent.mkdirAll dir]
            let tailEvents : List FsEvent :=
              if hasC then
                [FsEvent.writeFile (dir ++ "/_category_.json") (categoryJson title position),
                 FsEvent.writeFile (dir ++ "/index.md") markdown]
              else
                [FsEvent.writeFile (dir ++ "/" ++ page.id ++ ".md") markdown]
            (Except.ok (mkdirEvents ++ childEvents ++ tailEvents), reg2)

/-- Every file-system event produced by a successful child loop lies
under the loop's target directory, provided the abstracted recursive
write has that property. -/
theorem writeChildrenWith_paths
    (wm : String → NotionPage → Nat → List String →
      Except Failure (List FsEvent) × List String)
    (env : Env) (dir : String)
    (hwm : ∀ od p i r evs r', wm od p i r = (Except.ok evs, r') →
      ∀ e ∈ evs, ∃ rest, eventPath e = od ++ "/" ++ rest) :
    ∀ (cids : List String) (idx : Nat) (reg : List String) (hasC : Bool)
      (evs : List FsEvent) (reg' : List String) (hasF : Bool),
      writeChildrenWith wm env dir cids idx reg hasC = Except.ok (evs, reg', hasF) →
      ∀ e ∈ evs, ∃ rest, eventPath e = dir ++ "/" ++ rest := by
  intro cids
  induction cids with
  | nil =>
    intro idx reg hasC evs reg' hasF h e he
    simp only [writeChildrenWith, Except.ok.injEq, Prod.mk.injEq] at h
    rw [← h.1] at he
    simp at he
  | cons c cs ih =>
    intro idx reg hasC evs reg' hasF h e he
    rw [writeChildrenWith] at h
    split at h
    · exact ih _ _ _ _ _ _ h e he
    · rename_i childPage hp
      split at h
      · exact absurd h (by simp)
      · exact ih _ _ _ _ _ _ h e he
      · rename_i evs0 regO hwmr
        split at h
        · exact absurd h (by simp)
        · rename_i evsRest regF hasF2 hrec
          simp only [Except.ok.injEq, Prod.mk.injEq] at h
          rw [← h.1] at he
          rcases List.mem_append.mp he with hmem | hmem
          · exact hwm dir childPage idx reg evs0 regO hwmr e hmem
          · exact ih _ _ _ _ _ _ hrec e hmem

/-- Every file-system event produced by a successful `writeMarkdown` call
lies under the call's output directory. -/
theorem writeMarkdown_paths :
    ∀ (fuel : Nat) (env : Env) (dir : String) (page : NotionPage)
      (position : Nat) (reg : List String) (evs : List FsEvent)
      (reg' : List String),
      writeMarkdown env fuel dir page position reg = (Except.ok evs, reg') →
      ∀ e ∈ evs, ∃ rest, eventPath e = dir ++ "/" ++ rest := by
  intro fuel
  induction fuel with
  | zero =>
    intro env dir page position reg evs reg' h e he
    rw [writeMarkdown] at h
    split at h
    · exact absurd h (by simp)
    · rename_i markdown reg1 hpm
      split at h
      · exact absurd h (by simp)
      · rename_i pid childPages hrel
        dsimp only at h
        by_cases hemp : childPages.isEmpty = true
        · simp only [hemp, if_true] at h
          split at h
          · exact absurd h (by simp)
          · rename_i t s k hxp
            simp only [Except.ok.injEq, Prod.mk.injEq] at h
            rw [← h.1] at he
            simp at he
            subst he
            exact ⟨page.id ++ ".md", by simp [eventPath, String.append_assoc]⟩
        · simp only [hemp, Bool.false_eq_true, if_false] at h
          split at h
          · exact absurd h (by simp)
          · rename_i t s k hxp
            simp only [Except.ok.injEq, Prod.mk.injEq] at h
            rw [← h.1] at he
            simp at he
            rcases he with he | he <;> subst he
            · exact ⟨page.id, by simp [eventPath]⟩
            · exact ⟨page.id ++ "/" ++ page.id ++ ".md",
                by simp [eventPath, String.append_assoc]⟩
  | succ f ih =>
    intro env dir page position reg evs reg' h e he
    rw [writeMarkdown] at h
    split at h
    · exact absurd h (by simp)
    · rename_i markdown reg1 hpm
      split at h
      · exact absurd h (by simp)
      · rename_i pid childPages hrel
        dsimp only at h
        by_cases hemp : childPages.isEmpty = true
        · simp only [hemp, if_true] at h
          split at h
          · exact absurd h (by simp)
          · rename_i t s k hxp
            simp only [Except.ok.injEq, Prod.mk.injEq] at h
            rw [← h.1] at he
            simp at he
            subst he
            exact ⟨page.id ++ ".md", by simp [eventPath, String.append_assoc]⟩
        · simp only [hemp, Bool.false_eq_true, if_false] at h
          split at h
          · exact absurd h (by simp)
          · rename_i childEvents reg2 hasC hwc
            split at h
            · exact absurd h (by simp)
            · rename_i t s k hxp
              simp only [Except.ok.injEq, Prod.mk.injEq] at h
              rw [← h.1] at he
              have hchild : ∀ e ∈ childEvents, ∃ rest,
                  eventPath e = (dir ++ "/" ++ page.id) ++ "/" ++ rest :=
                writeChildrenWith_paths _ env (dir ++ "/" ++ page.id)
                  (fun od p i r evs1 r1 hh => ih env od p i r evs1 r1 hh)
                  childPages 0 reg1 false childEvents reg2 hasC hwc
              rcases List.mem_append.mp he with he1 | he1
              · rcases List.mem_append.mp he1 with he2 | he2
                · simp at he2
                  subst he2
                  exact ⟨page.id, by simp [eventPath]⟩
                · rcases hchild e he2 with ⟨r, hr⟩
                  exact ⟨page.id ++ "/" ++ r, by
                    rw [hr]; simp [String.append_assoc]⟩
              · cases hasC <;> simp at he1
                · subst he1
                  exact ⟨page.id ++ "/" ++ page.id ++ ".md",
                    by simp [eventPath, String.append_assoc]⟩
                · rcases he1 with he2 | he2 <;> subst he2
                  · exact ⟨page.id ++ "/_category_.json",
                      by simp [eventPath, String.append_assoc]⟩
                  · exact ⟨page.id ++ "/index.md",
                      by simp [eventPath, String.append_assoc]⟩

/-- C6: the exporter's filename policy.  (a) A page with no child pages
is written as the single file `<pageID>.md` in the current directory
(no directory is created).  (b) A page with at least one child page — all
of whose child writes succeed — becomes the subdirectory `<pageID>`
containing the children's own writes, a `_category_.json` recording the
page's (escaped) display label and position, and an `index.md` holding
the page's own content.  (c) Every event a successful write produces lies
under the current output directory, so the children's files and
subdirectories are contained in the parent's subdirectory. -/
theorem C6_filename_policy :
    (∀ (env : Env) (fuel : Nat) (dir : String) (page : NotionPage)
       (position : Nat) (reg : List String) (md : String) (reg1 : List String)
       (pid t s k : String),
       pageToMarkdown env fuel page position reg = (Except.ok md, reg1) →
       extractPageRelations page = some (pid, []) →
       extractPageProperties page = some (t, s, k) →
       writeMarkdown env fuel dir page position reg =
         (Except.ok [FsEvent.writeFile (dir ++ "/" ++ page.id ++ ".md") md], reg1))
    ∧ (∀ (env : Env) (fuel : Nat) (dir : String) (page : NotionPage)
       (position : Nat) (reg : List String) (md : String) (reg1 : List String)
       (pid : String) (cids : List String) (childEvents : List FsEvent)
       (reg2 : List String) (t s k : String),
       pageToMarkdown env (fuel + 1) page position reg = (Except.ok md, reg1) →
       extractPageRelations page = some (pid, cids) →
       cids ≠ [] →
       extractPageProperties page = some (t, s, k) →
       writeChildrenWith (fun od p i r => writeMarkdown env fuel od p i r)
         env (dir ++ "/" ++ page.id) cids 0 reg1 false =
         Except.ok (childEvents, reg2, true) →
       writeMarkdown env (fuel + 1) dir page position reg =
         (Except.ok (FsEvent.mkdirAll (dir ++ "/" ++ page.id) ::
            childEvents ++
            [FsEvent.writeFile (dir ++ "/" ++ page.id ++ "/_category_.json")
               (categoryJson (escapeTitleForJson t) position),
             FsEvent.writeFile (dir ++ "/" ++ page.id ++ "/index.md") md]), reg2))
    ∧ (∀ (env : Env) (fuel : Nat) (dir : String) (page : NotionPage)
       (position : Nat) (reg : List String) (evs : List FsEvent)
       (reg' : List String),
       writeMarkdown env fuel dir page position reg = (Except.ok evs, reg') →
       ∀ e ∈ evs, ∃ rest, eventPath e = dir ++ "/" ++ rest) := by
  refine ⟨?_, ?_, ?_⟩
  · intro env fuel dir page position reg md reg1 pid t s k h1 h2 h3
    rw [writeMarkdown]
    simp [h1, h2, h3]
  · intro env fuel dir page position reg md reg1 pid cids childEvents reg2 t s k
    intro h1 h2 hne h3 h4
    have hempf : cids.isEmpty = false := by
      cases cids with
      | nil => exact absurd rfl hne
      | cons c cs => rfl
    rw [writeMarkdown]
    simp [h1, h2, h3, h4, hempf]
  · intro env fuel dir page position reg evs reg' h
    exact writeMarkdown_paths fuel env dir page position reg evs reg' h

/-- Sample parent page with one `Sub-Items` child relation. -/
def parentPageC6 : NotionPage :=
  { id := "par", properties :=
      [("Name", nameProp "Parent Page"), ("Slug", slugProp "parent"),
       ("Sub-Items", subItemsProp ["ch1"])] }

/-- Sample child page with no child relations. -/
def childPageC6 : NotionPage :=
  { id := "ch1", properties := [("Name", nameProp "Child"), ("Slug", slugProp "child")] }

/-- Environment resolving the sample child page and giving every page
empty block content. -/
def c6Env : Env :=
  { emptyEnv with
      pageContent := fun _ => some []
      pages := fun i => if i == "ch1" then some childPageC6 else none }

/-- C6 witness: the policy at the concrete pages — the childless page
becomes a single `<pageID>.md`; the parent page becomes the `par`
subdirectory holding the child's file, `_category_.json` and `index.md`;
and the child's file path lies under the output directory. -/
theorem C6_filename_policy_witness :
    writeMarkdown c6Env 1 "out" childPageC6 3 [] =
      (Except.ok [FsEvent.writeFile ("out" ++ "/" ++ childPageC6.id ++ ".md")
         (mdTemplate "Child" "child" "[]" 3 "")], ["child"])
    ∧ writeMarkdown c6Env (1 + 1) "out" parentPageC6 0 [] =
      (Except.ok (FsEvent.mkdirAll ("out" ++ "/" ++ parentPageC6.id) ::
         [FsEvent.writeFile "out/par/ch1.md" (mdTemplate "Child" "child" "[]" 0 "")] ++
         [FsEvent.writeFile ("out" ++ "/" ++ parentPageC6.id ++ "/_category_.json")
            (categoryJson (escapeTitleForJson "Parent Page") 0),
          FsEvent.writeFile ("out" ++ "/" ++ parentPageC6.id ++ "/index.md")
            (mdTemplate "Parent Page" "parent" "[]" 0 "")]), ["parent", "child"])
    ∧ (∃ rest, eventPath (FsEvent.writeFile "out/par/ch1.md"
         (mdTemplate "Child" "child" "[]" 0 "")) = "out" ++ "/" ++ rest) := by
  refine ⟨?_, ?_, ?_⟩
  · exact C6_filename_policy.1 c6Env 1 "out" childPageC6 3 []
      (mdTemplate "Child" "child" "[]" 3 "") ["child"] "" "Child" "child" ""
      rfl rfl rfl
  · exact C6_filename_policy.2.1 c6Env 1 "out" parentPageC6 0 []
      (mdTemplate "Parent Page" "parent" "[]" 0 "") ["parent"] "" ["ch1"]
      [FsEvent.writeFile "out/par/ch1.md" (mdTemplate "Child" "child" "[]" 0 "")]
      ["parent", "child"] "Parent Page" "parent" ""
      rfl rfl (by decide) rfl rfl
  · exact C6_filename_policy.2.2 c6Env (1 + 1) "out" parentPageC6 0 []
      (FsEvent.mkdirAll ("out" ++ "/" ++ parentPageC6.id) ::
         [FsEvent.writeFile "out/par/ch1.md" (mdTemplate "Child" "child" "[]" 0 "")] ++
         [FsEvent.writeFile ("out" ++ "/" ++ parentPageC6.id ++ "/_category_.json")
            (categoryJson (escapeTitleForJson "Parent Page") 0),
          FsEvent.writeFile ("out" ++ "/" ++ parentPageC6.id ++ "/index.md")
            (mdTemplate "Parent Page" "parent" "[]" 0 "")])
      ["parent", "child"] rfl
      (FsEvent.writeFile "out/par/ch1.md" (mdTemplate "Child" "child" "[]" 0 ""))
      (by simp)

/-! ## The top-level traversal `processBlocks` (source lines 965-1013) -/

/-- The per-result dispatch loop of `processBlocks` (`for index, block :=
range response.Results`), with the re-entry into the pagination loop
abstracted as `pbl` (used both for the child-page recursion and for the
next-cursor continuation) and the page write as `wm`.  A `link_to_page`
result whose page fetch fails, or whose write returns an error, is
skipped; a `child_page` result acts only when its has-children flag is
set, creating the title-named subdirectory and recursing; every other
result is ignored. -/
def processResultsWith
    (pbl : String → String → String → List String →
      Except Failure (List FsEvent × List String))
    (wm : String → NotionPage → Nat → List String →
      Except Failure (List FsEvent) × List String)
    (env : Env) (blockID outputDir nextCursor : String) (hasMore : Bool) :
    Nat → List NotionBlock → List String →
    Except Failure (List FsEvent × List String)
  | _, [], reg =>
    if hasMore then pbl blockID outputDir nextCursor reg
    else Except.ok ([], reg)
  | idx, b :: rest, reg =>
    match b.type with
    | "link_to_page" =>
      match b.linkToPage with
      | none => Except.error Failure.panicked
      | some l =>
        match env.pages l.pageId with
        | none =>
          processResultsWith pbl wm env blockID outputDir nextCursor hasMore
            (idx + 1) rest reg
        | some page =>
          match wm outputDir page idx reg with
          | (Except.error Failure.panicked, _) => Except.error Failure.panicked
          | (Except.error Failure.errored, regE) =>
            processResultsWith pbl wm env blockID outputDir nextCursor hasMore
              (idx + 1) rest regE
          | (Except.ok evs, regO) =>
            match processResultsWith pbl wm env blockID outputDir nextCursor hasMore
                (idx + 1) rest regO with
            | Except.error f => Except.error f
            | Except.ok (evsR, regF) => Except.ok (evs ++ evsR, regF)
    | "child_page" =>
      if b.hasChildren then
        match b.childPage with
        | none => Except.error Failure.panicked
        | some cp =>
          match pbl b.id (outputDir ++ "/" ++ cp.title) "" reg with
          | Except.error f => Except.error f
          | Except.ok (evs, regO) =>
            match processResultsWith pbl wm env blockID outputDir nextCursor hasMore
                (idx + 1) rest regO with
            | Except.error f => Except.error f
            | Except.ok (evsR, regF) =>
              Except.ok (FsEvent.mkdirAll (outputDir ++ "/" ++ cp.title) :: evs ++ evsR,
                regF)
      else
        processResultsWith pbl wm env blockID outputDir nextCursor hasMore
          (idx + 1) rest reg
    | _ =>
      processResultsWith pbl wm env blockID outputDir nextCursor hasMore
        (idx + 1) rest reg

/-- The pagination loop of `processBlocks`: fetch one page of children
(a fetch failure is `log.Fatalf`, modelled as `Failure.errored`), process
its results, then — via the continuation in `processResultsWith` —
re-issue with the returned cursor while `has_more` holds.  The fuel
bounds the number of fetched pages plus the child-page recursion
depth. -/
def processBlocksLoop (env : Env) : Nat → String → String → String → List String →
    Except Failure (List FsEvent × List String)
  | 0, _, _, _, reg => Except.ok ([], reg)
  | f + 1, blockID, outputDir, cursor, reg =>
    match env.childrenResp blockID cursor with
    | none => Except.error Failure.errored
    | some resp =>
      processResultsWith
        (fun bid od cur r => processBlocksLoop env f bid od cur r)
        (fun od p i r => writeMarkdown env f od p i r)
        env blockID outputDir resp.nextCursor resp.hasMore 0 resp.results reg

/-- Model of Go `processBlocks(token, blockID, outputDir)` (source lines
965-1013): the traversal starts with an empty cursor. -/
def processBlocks (env : Env) (fuel : Nat) (blockID outputDir : String)
    (reg : List String) : Except Failure (List FsEvent × List String) :=
  processBlocksLoop env fuel blockID outputDir "" reg

/-- C10: a `child_page` result whose has-children flag is false produces
no output at all — no file, no directory, no recursion: a traversal whose
single result is such a block ends with no file-system events and an
unchanged slug registry (for any environment, any block id and output
directory, and any fuel). -/
theorem C10_childpage_without_children_skipped :
    ∀ (env : Env) (fuel : Nat) (blockID outputDir : String) (reg : List String)
      (b : NotionBlock),
      env.childrenResp blockID "" =
        some { results := [b], nextCursor := "", hasMore := false } →
      b.type = "child_page" → b.hasChildren = false →
      processBlocks env (fuel + 1) blockID outputDir reg = Except.ok ([], reg) := by
  intro env fuel blockID outputDir reg b hresp ht hc
  simp [processBlocks, processBlocksLoop, processResultsWith, hresp, ht, hc]

/-- A `child_page` block whose has-children flag is false. -/
def c10Block : NotionBlock :=
  { id := "blk", type := "child_page", hasChildren := false,
    childPage := some { title := "T" } }

/-- Environment whose traversal of `root` returns exactly the one
`child_page` block above. -/
def c10Env : Env :=
  { emptyEnv with
      childrenResp := fun bid cur =>
        if bid == "root" && cur == "" then
          some { results := [c10Block], nextCursor := "", hasMore := false }
        else none }

/-- C10 witness: the concrete traversal produces no events and leaves the
registry unchanged. -/
theorem C10_childpage_without_children_skipped_witness :
    processBlocks c10Env (4 + 1) "root" "out" [] = Except.ok ([], []) := by
  exact C10_childpage_without_children_skipped c10Env 4 "root" "out" [] c10Block
    rfl rfl rfl

end NotionGo
